import Mathlib

/-!
Verification of the streaming chat client's incremental response renderer
and streaming-session state machine (excom-ai-tamkeen).

The embedding follows `src/components/Chat.js` (`handleStreamedResponse`,
`stopGeneration`), `EnhancedMarkdown.js` (`hasIncompleteCodeBlock` and the
`code` component renderer), `StreamingCodeBlock.js` and `HtmlPreview.js`.

Modelling conventions:
  * JS strings are Lean `String`; opaque JSON payload values carried by
    events are modelled as `Option String` (absent field = `none`).
  * `Date.now()` is modelled as an abstract tick `now : Nat` supplied by
    the driving loop and incremented once per processed record; no claim
    depends on timestamp values.
  * A message object in the React state list is the structure `BotMessage`.
    The code keeps no explicit status field; it distinguishes outcomes by
    which branch finalized the message (done / user-abort / failure).  The
    field `status` below is a ghost field recording exactly that branch,
    mirroring the spec's status enum {streaming, complete, stopped, errored}.
  * `JSON.parse` is modelled by its outcome: a line either yields a typed
    event (`ParsedLine.ok`) or throws `SyntaxError` (`ParsedLine.malformed`).
-/

/-- The fixed user-facing failure message written by the generic error
branch of `handleStreamedResponse`'s catch. -/
def errMsg : String := "Sorry, I encountered an error. Please try again."

/-- The fixed stop marker appended on user cancellation
(`'\n\n*[Generation stopped by user]*'` in the abort branch). -/
def stopMsg : String := "\n\n*[Generation stopped by user]*"

/-- The abort reason passed by `stopGeneration`:
`currentAbortController.abort('user_stopped')`. -/
def userStopReason : String := "user_stopped"

/-- Ghost status recording which code branch finalized the message. -/
inductive TurnStatus
  | streaming
  | complete
  | stopped
  | errored
deriving DecidableEq, Repr

/-- A completed non-text item pushed on `completedItems`.
`thinking` covers both `'thinking'` and `'reasoning'` typed records (the
code treats them identically); `toolCall` carries the `isProcessing` flag
(the spec's `resolved` is its negation). -/
inductive SubItem
  | thinking (content : String) (timestamp : Nat)
  | toolCall (name : String) (input : Option String) (timestamp : Nat) (isProcessing : Bool)
deriving DecidableEq, Repr

/-- A message object of the React `messages` list, as created and updated
by `handleStreamedResponse`.  `text` is the final text (absent until
finalization); `streamingText` mirrors the closure's `accumulatedText`. -/
structure BotMessage where
  id : Nat
  sender : String
  streamingText : String
  text : Option String
  completedItems : List SubItem
  isStreaming : Bool
  isError : Bool
  status : TurnStatus
deriving DecidableEq, Repr

/-- The initial bot message appended when the stream opens:
`{ id, streamingText: '', completedItems: [], sender: 'bot', isStreaming: true }`. -/
def initialBotMessage (id : Nat) : BotMessage :=
  { id := id
    sender := "bot"
    streamingText := ""
    text := none
    completedItems := []
    isStreaming := true
    isError := false
    status := .streaming }

/-- The typed records recognized by the dispatch on `parsed.type`.
`toolCall` carries the optional `tool`, `tool_input` and `input` payload
fields; `unrecognized` stands for any other discriminator (the else-if
chain falls through silently). -/
inductive StreamEvent
  | content (delta : String)
  | thinking (c : String)
  | toolCall (tool : Option String) (toolInput : Option String) (input : Option String)
  | toolResult (isErr : Bool)
  | toolComplete
  | statusEvt
  | errorEvt (c : String)
  | done
  | unrecognized (kind : String)
deriving DecidableEq, Repr

/-- JS `a || b` for an optional string against a string default
(absent and the empty string are falsy). -/
def jsOrString (v : Option String) (d : String) : String :=
  match v with
  | some s => if s = "" then d else s
  | none => d

/-- JS `a || b` for two optional string payload fields. -/
def jsOrOpt (a b : Option String) : Option String :=
  match a with
  | some s => if s = "" then b else some s
  | none => b

/-- Backward scan of `tool_result` handling, on the reversed item list:
flip `isProcessing` on the first processing tool call found, then stop. -/
def markFirstProcessing : List SubItem → List SubItem
  | [] => []
  | .toolCall n i t true :: rest => .toolCall n i t false :: rest
  | item :: rest => item :: markFirstProcessing rest

/-- `tool_result` handling: `for (let i = completedItems.length - 1; i >= 0; i--)`
find the last tool call with `isProcessing` and mark it completed. -/
def markLastToolCall (items : List SubItem) : List SubItem :=
  (markFirstProcessing items.reverse).reverse

/-- Outcome of dispatching one parsed record inside the read loop. -/
inductive StepResult
  | next (m : BotMessage)
  | finished (m : BotMessage)
  | thrown (m : BotMessage) (errContent : String)
deriving DecidableEq, Repr

/-- The generic failure branch of the outer catch: both text fields are
overwritten with the fixed failure message. -/
def failTurn (m : BotMessage) : BotMessage :=
  { m with
    streamingText := errMsg
    text := some errMsg
    isError := true
    isStreaming := false
    status := .errored }

/-- The user-cancellation branch of the outer catch: append the stop
marker to the accumulated text and finalize.  (`accumulatedText` in the
closure always equals the bot message's `streamingText` while streaming.) -/
def stopTurn (m : BotMessage) : BotMessage :=
  { m with
    streamingText := m.streamingText ++ stopMsg
    text := some (m.streamingText ++ stopMsg)
    isStreaming := false
    status := .stopped }

/-- Dispatch of one typed record, mirroring the `parsed.type` else-if
chain.  `error` throws (handled by the outer catch); `done` finalizes and
returns; everything else continues the loop. -/
def applyEvent (now : Nat) (m : BotMessage) : StreamEvent → StepResult
  | .content d => .next { m with streamingText := m.streamingText ++ d }
  | .thinking c => .next { m with completedItems := m.completedItems ++ [.thinking c now] }
  | .toolCall tool toolInput input =>
      .next { m with
        completedItems :=
          m.completedItems ++ [.toolCall (jsOrString tool "tool") (jsOrOpt toolInput input) now true] }
  | .toolResult _ => .next { m with completedItems := markLastToolCall m.completedItems }
  | .toolComplete => .next m
  | .statusEvt => .next m
  | .errorEvt c => .thrown m c
  | .done =>
      .finished { m with
        text := some m.streamingText
        isStreaming := false
        status := .complete }
  | .unrecognized _ => .next m

/-- Fold a record sequence through the read loop: `done` returns, a thrown
`error` record falls to the outer catch's generic failure branch. -/
def applyAll (now : Nat) (m : BotMessage) : List StreamEvent → BotMessage
  | [] => m
  | e :: rest =>
    match applyEvent now m e with
    | .next m' => applyAll (now + 1) m' rest
    | .finished m' => m'
    | .thrown m' _ => failTurn m'

/-- **C8**: applying `content "Hello"`, `content " world"`, `done` to a
fresh turn yields final text `"Hello world"` and status complete (`done`
copies the accumulated streaming text into the final text). -/
theorem scenario_a_hello_world (now id : Nat) :
    (applyAll now (initialBotMessage id)
        [.content "Hello", .content " world", .done]).text = some "Hello world"
    ∧ (applyAll now (initialBotMessage id)
        [.content "Hello", .content " world", .done]).status = .complete
    ∧ (applyAll now (initialBotMessage id)
        [.content "Hello", .content " world", .done]).streamingText = "Hello world" := by
  refine ⟨rfl, rfl, rfl⟩

/-- The accumulated text of Scenario C, an unfinished code fence. -/
def scenarioCText : String := "```py\nprint(1)"

/-- **C2 counterexample**: the claim says a non-cancellation failure after
content deltas preserves the accumulated text in the turn.  In the code the
generic failure branch overwrites both `streamingText` and `text` with the
fixed failure message: after `content "```py\nprint(1)"` and a stream
failure, the turn's text is the failure message and the accumulated
fragment is nowhere in it. -/
theorem failure_discards_accumulated_text :
    (failTurn (applyAll 0 (initialBotMessage 3) [.content scenarioCText])).status = .errored
    ∧ (failTurn (applyAll 0 (initialBotMessage 3) [.content scenarioCText])).streamingText = errMsg
    ∧ (failTurn (applyAll 0 (initialBotMessage 3) [.content scenarioCText])).text = some errMsg
    ∧ ¬ ("print(1)".data <:+:
        (failTurn (applyAll 0 (initialBotMessage 3) [.content scenarioCText])).streamingText.data) := by
  refine ⟨rfl, rfl, rfl, by decide⟩

/-- **C2 (amended)**: if the stream fails with a non-cancellation failure
after any sequence of content deltas and before any done event, the turn
ends with status errored and both `streamingText` and `finalText` are set
to the fixed failure message — the accumulated text is replaced, not
preserved. -/
theorem failure_sets_fixed_message (now id : Nat) (deltas : List String) :
    (failTurn (applyAll now (initialBotMessage id) (deltas.map StreamEvent.content))).status = .errored
    ∧ (failTurn (applyAll now (initialBotMessage id) (deltas.map StreamEvent.content))).streamingText = errMsg
    ∧ (failTurn (applyAll now (initialBotMessage id) (deltas.map StreamEvent.content))).text = some errMsg := by
  refine ⟨rfl, rfl, rfl⟩

/-- The error object observed by the outer catch: `name`, optional
`cause`, and `message`. -/
structure JsError where
  name : String
  cause : Option String
  message : String
deriving DecidableEq, Repr

/-- The abort error produced when the in-flight fetch is aborted with an
explicit reason (`abortController.abort(reason)`). -/
def abortErrorFor (reason : String) : JsError :=
  { name := "AbortError", cause := some reason, message := "" }

/-- The outer catch of `handleStreamedResponse`: an `AbortError` whose
`cause || message` is `'user_stopped'` finalizes via the stop branch, any
other `AbortError` leaves the message untouched, and every other error
takes the generic failure branch. -/
def handleCatch (m : BotMessage) (e : JsError) : BotMessage :=
  if e.name = "AbortError" then
    if jsOrString e.cause e.message = userStopReason then stopTurn m else m
  else failTurn m

/-- The component state of `Chat` relevant to cancellation. -/
structure ChatState where
  messages : List BotMessage
  currentAbortController : Option Nat
  isTyping : Bool
deriving DecidableEq, Repr

/-- `stopGeneration`: if a controller is active, abort it with reason
`'user_stopped'` (the returned option is the reason passed to `abort`),
clear the controller and the typing flag; otherwise do nothing. -/
def stopGeneration (s : ChatState) : ChatState × Option String :=
  match s.currentAbortController with
  | some _ => ({ s with currentAbortController := none, isTyping := false }, some userStopReason)
  | none => (s, none)

/-- Helper: string append on the underlying character lists. -/
theorem string_data_append (a b : String) : (a ++ b).data = a.data ++ b.data := by
  cases a; cases b; rfl

/-- Helper: no string followed by the stop marker equals the fixed failure
message (the failure message does not end with the stop marker). -/
theorem append_stopMsg_ne_errMsg (s : String) : s ++ stopMsg ≠ errMsg := by
  intro h
  have hd : s.data ++ stopMsg.data = errMsg.data := by
    have := congrArg String.data h
    simpa [string_data_append] using this
  have hsuf : stopMsg.data <:+ errMsg.data := ⟨s.data, hd⟩
  exact absurd hsuf (by decide)

/-- **C3**: cancelling while a stream is active issues an abort with the
user-requested reason `'user_stopped'`; the catch then finalizes the turn
with status stopped and final text equal to the accumulated `"partial"`
followed by the fixed stop marker; and the user-cancellation branch can
never produce the generic failure message (that message arises only from
the genuine-failure branch). -/
theorem cancel_mid_stream (now id k : Nat) (msgs : List BotMessage) :
    (stopGeneration { messages := msgs, currentAbortController := some k, isTyping := true }).2
        = some userStopReason
    ∧ (handleCatch (applyAll now (initialBotMessage id) [.content "partial"])
        (abortErrorFor userStopReason)).status = .stopped
    ∧ (handleCatch (applyAll now (initialBotMessage id) [.content "partial"])
        (abortErrorFor userStopReason)).text = some ("partial" ++ stopMsg)
    ∧ (∀ m : BotMessage,
        (handleCatch m (abortErrorFor userStopReason)).streamingText ≠ errMsg
        ∨ m.streamingText = errMsg) := by
  refine ⟨rfl, rfl, rfl, ?_⟩
  intro m
  by_cases hm : m.streamingText = errMsg
  · exact Or.inr hm
  · left
    show (stopTurn m).streamingText ≠ errMsg
    exact append_stopMsg_ne_errMsg m.streamingText

/-- A tool invocation still awaiting its result (`isProcessing`; the
spec's `resolved = false`). -/
def isUnresolved : SubItem → Bool
  | .toolCall _ _ _ true => true
  | _ => false

/-- Number of unresolved tool invocations among a turn's items. -/
def countUnresolved (items : List SubItem) : Nat :=
  items.countP isUnresolved

/-- Helper: `countP` is invariant under reversal. -/
theorem countP_reverse_eq (p : SubItem → Bool) (l : List SubItem) :
    l.reverse.countP p = l.countP p := by
  induction l with
  | nil => rfl
  | cons a t ih => simp [List.countP_append, List.countP_cons, ih, Nat.add_comm]

/-- Helper: marking the first processing tool call drops the unresolved
count by one (saturating at zero when none is processing). -/
theorem countUnresolved_markFirstProcessing (l : List SubItem) :
    (markFirstProcessing l).countP isUnresolved = l.countP isUnresolved - 1 := by
  induction l with
  | nil => rfl
  | cons hd tl ih =>
    cases hd with
    | thinking c t =>
      simp [markFirstProcessing, List.countP_cons, isUnresolved, ih]
    | toolCall n i t p =>
      cases p with
      | true => simp [markFirstProcessing, List.countP_cons, isUnresolved]
      | false => simp [markFirstProcessing, List.countP_cons, isUnresolved, ih]

/-- Helper: resolving the most recent invocation drops the unresolved
count by one (saturating at zero). -/
theorem countUnresolved_markLastToolCall (items : List SubItem) :
    countUnresolved (markLastToolCall items) = countUnresolved items - 1 := by
  unfold countUnresolved markLastToolCall
  rw [countP_reverse_eq, countUnresolved_markFirstProcessing, countP_reverse_eq]

/-- **C1 counterexample**: two consecutive `tool_call` records leave two
tool invocations with `resolved = false` in the turn (the code never
resolves an earlier invocation when a new one arrives), so the claimed
at-most-one-unresolved invariant fails at that observation point. -/
theorem two_unresolved_invocations :
    1 < countUnresolved (applyAll 0 (initialBotMessage 7)
      [.toolCall (some "a") none none, .toolCall (some "b") none none]).completedItems := by
  decide

/-- Alternation check for tool records: tracks the number of unresolved
invocations and insists a new `tool_call` arrives only when none is
pending (the amendment's hypothesis). -/
def toolBalancedAux : Nat → List StreamEvent → Bool
  | _, [] => true
  | c, e :: rest =>
    match e with
    | .toolCall _ _ _ => (c == 0) && toolBalancedAux (c + 1) rest
    | .toolResult _ => toolBalancedAux (c - 1) rest
    | _ => toolBalancedAux c rest

/-- Alternation check started with no pending invocation. -/
def toolBalanced (evs : List StreamEvent) : Bool := toolBalancedAux 0 evs

/-- Helper: the alternation check only looks at a prefix's part of the
sequence, so it restricts to prefixes. -/
theorem toolBalancedAux_append (p q : List StreamEvent) :
    ∀ c : Nat, toolBalancedAux c (p ++ q) = true → toolBalancedAux c p = true := by
  induction p with
  | nil => intro c _; rfl
  | cons e rest ih =>
    intro c h
    cases e <;> simp only [toolBalancedAux, List.cons_append, Bool.and_eq_true] at h ⊢ <;>
      first
        | exact ih _ h
        | exact ⟨h.1, ih _ h.2⟩

/-- Helper: running the accumulator over an alternating record sequence
keeps the unresolved count at most one. -/
theorem countUnresolved_le_one_aux (evs : List StreamEvent) :
    ∀ (now : Nat) (m : BotMessage),
      countUnresolved m.completedItems ≤ 1 →
      toolBalancedAux (countUnresolved m.completedItems) evs = true →
      countUnresolved (applyAll now m evs).completedItems ≤ 1 := by
  induction evs with
  | nil => intro now m h _; exact h
  | cons e rest ih =>
    intro now m hle hbal
    cases e with
    | content d =>
      simpa [applyAll, applyEvent] using
        ih (now + 1) { m with streamingText := m.streamingText ++ d } hle
          (by simpa [toolBalancedAux] using hbal)
    | thinking c =>
      have hcount : countUnresolved (m.completedItems ++ [SubItem.thinking c now]) =
          countUnresolved m.completedItems := by
        simp [countUnresolved, List.countP_append, isUnresolved]
      simp only [toolBalancedAux] at hbal
      simpa [applyAll, applyEvent] using
        ih (now + 1) { m with completedItems := m.completedItems ++ [SubItem.thinking c now] }
          (by simpa [hcount] using hle) (by simpa [hcount] using hbal)
    | toolCall tool toolInput input =>
      simp only [toolBalancedAux, Bool.and_eq_true, beq_iff_eq] at hbal
      obtain ⟨hzero, hrest⟩ := hbal
      have hcount : countUnresolved (m.completedItems ++
          [SubItem.toolCall (jsOrString tool "tool") (jsOrOpt toolInput input) now true]) =
          countUnresolved m.completedItems + 1 := by
        simp [countUnresolved, List.countP_append, List.countP_cons, isUnresolved]
      simpa [applyAll, applyEvent] using
        ih (now + 1) { m with completedItems := m.completedItems ++
            [SubItem.toolCall (jsOrString tool "tool") (jsOrOpt toolInput input) now true] }
          (by simp [hcount, hzero]) (by simpa [hcount, hzero] using hrest)
    | toolResult isErr =>
      simp only [toolBalancedAux] at hbal
      have hcount : countUnresolved (markLastToolCall m.completedItems) =
          countUnresolved m.completedItems - 1 := countUnresolved_markLastToolCall _
      simpa [applyAll, applyEvent] using
        ih (now + 1) { m with completedItems := markLastToolCall m.completedItems }
          (by simp [hcount]; omega) (by simpa [hcount] using hbal)
    | toolComplete =>
      simpa [applyAll, applyEvent] using ih (now + 1) m hle (by simpa [toolBalancedAux] using hbal)
    | statusEvt =>
      simpa [applyAll, applyEvent] using ih (now + 1) m hle (by simpa [toolBalancedAux] using hbal)
    | errorEvt c =>
      simpa [applyAll, applyEvent, failTurn] using hle
    | done =>
      simpa [applyAll, applyEvent] using hle
    | unrecognized k =>
      simpa [applyAll, applyEvent] using ih (now + 1) m hle (by simpa [toolBalancedAux] using hbal)

/-- **C1 (amended)**: if `tool_call` and `tool_result` records alternate —
a new `tool_call` arrives only when no invocation is pending, as captured
by `toolBalanced` — then at every observation point (after any prefix `p`
of the sequence) at most one tool invocation in the turn's items has
`resolved = false`. -/
theorem unresolved_at_most_one (p q : List StreamEvent) (now id : Nat)
    (h : toolBalanced (p ++ q) = true) :
    countUnresolved (applyAll now (initialBotMessage id) p).completedItems ≤ 1 := by
  have hp : toolBalanced p = true := toolBalancedAux_append p q 0 h
  exact countUnresolved_le_one_aux p now (initialBotMessage id) (Nat.zero_le 1)
    (by simpa [toolBalanced, initialBotMessage, countUnresolved] using hp)

/-- Witness for `unresolved_at_most_one` at a concrete alternating
sequence. -/
theorem unresolved_at_most_one_witness :
    toolBalanced ([StreamEvent.toolCall (some "search") none none, .toolResult false]
        ++ [.done]) = true
    ∧ countUnresolved (applyAll 0 (initialBotMessage 2)
        [StreamEvent.toolCall (some "search") none none, .toolResult false]).completedItems ≤ 1 :=
  ⟨by decide,
   unresolved_at_most_one [StreamEvent.toolCall (some "search") none none, .toolResult false]
     [.done] 0 2 (by decide)⟩


/-- Helper: marking an invocation resolved keeps the item count. -/
theorem length_markFirstProcessing (l : List SubItem) :
    (markFirstProcessing l).length = l.length := by
  induction l with
  | nil => rfl
  | cons hd tl ih =>
    cases hd with
    | thinking c t => simp [markFirstProcessing, ih]
    | toolCall n i t p =>
      cases p with
      | true => simp [markFirstProcessing]
      | false => simp [markFirstProcessing, ih]

/-- Helper: `tool_result` handling keeps the item count. -/
theorem length_markLastToolCall (items : List SubItem) :
    (markLastToolCall items).length = items.length := by
  unfold markLastToolCall
  rw [List.length_reverse, length_markFirstProcessing, List.length_reverse]

/-- A record sequence with no `error` record. -/
def noErrorEvents (evs : List StreamEvent) : Bool :=
  evs.all fun e =>
    match e with
    | .errorEvt _ => false
    | _ => true

/-- Helper: over an error-free record sequence the accumulator never
shrinks the streaming text or the item list. -/
theorem applyAll_lengths_mono (evs : List StreamEvent) :
    ∀ (now : Nat) (m : BotMessage), noErrorEvents evs = true →
      m.streamingText.length ≤ (applyAll now m evs).streamingText.length
      ∧ m.completedItems.length ≤ (applyAll now m evs).completedItems.length := by
  induction evs with
  | nil => intro now m _; exact ⟨Nat.le_refl _, Nat.le_refl _⟩
  | cons e rest ih =>
    intro now m hne
    have hrest : noErrorEvents rest = true := by
      simp only [noErrorEvents, List.all_cons, Bool.and_eq_true] at hne
      exact hne.2
    cases e with
    | content d =>
      have h := ih (now + 1) { m with streamingText := m.streamingText ++ d } hrest
      refine ⟨Nat.le_trans ?_ h.1, ?_⟩
      · simp [String.length_append]
      · simpa [applyAll, applyEvent] using h.2
    | thinking c =>
      have h := ih (now + 1)
        { m with completedItems := m.completedItems ++ [SubItem.thinking c now] } hrest
      refine ⟨?_, Nat.le_trans ?_ h.2⟩
      · simpa [applyAll, applyEvent] using h.1
      · simp
    | toolCall tool toolInput input =>
      have h := ih (now + 1)
        { m with completedItems := m.completedItems ++
            [SubItem.toolCall (jsOrString tool "tool") (jsOrOpt toolInput input) now true] } hrest
      refine ⟨?_, Nat.le_trans ?_ h.2⟩
      · simpa [applyAll, applyEvent] using h.1
      · simp
    | toolResult isErr =>
      have h := ih (now + 1) { m with completedItems := markLastToolCall m.completedItems } hrest
      refine ⟨?_, Nat.le_trans ?_ h.2⟩
      · simpa [applyAll, applyEvent] using h.1
      · simp [length_markLastToolCall]
    | toolComplete =>
      simpa [applyAll, applyEvent] using ih (now + 1) m hrest
    | statusEvt =>
      simpa [applyAll, applyEvent] using ih (now + 1) m hrest
    | errorEvt c =>
      simp [noErrorEvents, List.all_cons] at hne
    | done =>
      exact ⟨Nat.le_refl _, Nat.le_refl _⟩
    | unrecognized k =>
      simpa [applyAll, applyEvent] using ih (now + 1) m hrest

/-- Helper: intermediate observation points never exceed later ones — the
accumulated lengths after a prefix are bounded by the lengths after the
whole error-free sequence. -/
theorem applyAll_lengths_mono_of_append (p : List StreamEvent) :
    ∀ (q : List StreamEvent) (now : Nat) (m : BotMessage), noErrorEvents (p ++ q) = true →
      (applyAll now m p).streamingText.length ≤ (applyAll now m (p ++ q)).streamingText.length
      ∧ (applyAll now m p).completedItems.length ≤ (applyAll now m (p ++ q)).completedItems.length := by
  induction p with
  | nil =>
    intro q now m hne
    exact applyAll_lengths_mono q now m (by simpa using hne)
  | cons e rest ih =>
    intro q now m hne
    have hne' : noErrorEvents (rest ++ q) = true := by
      simp only [List.cons_append, noErrorEvents, List.all_cons, Bool.and_eq_true] at hne
      exact hne.2
    cases e with
    | content d => simpa [applyAll, applyEvent] using ih q (now + 1) _ hne'
    | thinking c => simpa [applyAll, applyEvent] using ih q (now + 1) _ hne'
    | toolCall tool toolInput input => simpa [applyAll, applyEvent] using ih q (now + 1) _ hne'
    | toolResult isErr => simpa [applyAll, applyEvent] using ih q (now + 1) _ hne'
    | toolComplete => simpa [applyAll, applyEvent] using ih q (now + 1) _ hne'
    | statusEvt => simpa [applyAll, applyEvent] using ih q (now + 1) _ hne'
    | errorEvt c =>
      simp [noErrorEvents, List.all_cons] at hne
    | done => exact ⟨Nat.le_refl _, Nat.le_refl _⟩
    | unrecognized k => simpa [applyAll, applyEvent] using ih q (now + 1) _ hne'

/-- A content delta longer than the fixed failure message, used to exhibit
the shrink caused by the `error` record. -/
def longDelta : String := errMsg ++ "####"

/-- **C6 counterexample**: the claim includes `error` among the events and
asserts `streamingText` length is non-decreasing; but the `error` record
routes to the generic failure branch, which overwrites the accumulated
text with the fixed failure message — after a 52-character delta the text
shrinks to 48 characters at the next observation point. -/
theorem error_event_shrinks_streaming_text :
    (applyAll 0 (initialBotMessage 5) [.content longDelta, .errorEvt "boom"]).streamingText.length
      < (applyAll 0 (initialBotMessage 5) [.content longDelta]).streamingText.length := by
  decide

/-- **C6 (amended)**: for any sequence of valid events containing no
`error` record (content, thinking/reasoning, tool_call, tool_result,
done), the length of the turn's `streamingText` and the length of its item
list are non-decreasing at every step: any prefix observation is bounded
by any later observation. -/
theorem lengths_nondecreasing (p q : List StreamEvent) (now : Nat) (m : BotMessage)
    (h : noErrorEvents (p ++ q) = true) :
    (applyAll now m p).streamingText.length ≤ (applyAll now m (p ++ q)).streamingText.length
    ∧ (applyAll now m p).completedItems.length
        ≤ (applyAll now m (p ++ q)).completedItems.length :=
  applyAll_lengths_mono_of_append p q now m h

/-- Witness for `lengths_nondecreasing` on a concrete error-free
sequence. -/
theorem lengths_nondecreasing_witness :
    noErrorEvents ([StreamEvent.content "Hello", .thinking "hm"]
        ++ [.toolCall (some "t") none none, .done]) = true
    ∧ (applyAll 0 (initialBotMessage 4)
          [StreamEvent.content "Hello", .thinking "hm"]).streamingText.length
        ≤ (applyAll 0 (initialBotMessage 4)
          ([StreamEvent.content "Hello", .thinking "hm"]
            ++ [.toolCall (some "t") none none, .done])).streamingText.length :=
  ⟨by decide,
   (lengths_nondecreasing [StreamEvent.content "Hello", .thinking "hm"]
     [.toolCall (some "t") none none, .done] 0 (initialBotMessage 4) (by decide)).1⟩

/-- Outcome of `JSON.parse` on one `data:` line: a typed record, or a
`SyntaxError` (carrying the raw text for the warning log). -/
inductive ParsedLine
  | ok (e : StreamEvent)
  | malformed (raw : String)
deriving DecidableEq, Repr

/-- The recoverable warning logged for a malformed line
(`console.warn('Failed to parse SSE data:', data)`). -/
def warnMsg (raw : String) : String := "Failed to parse SSE data: " ++ raw

/-- The parsing loop over decoded lines: a malformed line logs a warning
and is skipped; a typed record is dispatched; `done` returns and a thrown
`error` record falls to the generic failure branch.  The function is total
— no exception escapes the loop. -/
def processLines (now : Nat) (m : BotMessage) (warns : List String) :
    List ParsedLine → BotMessage × List String
  | [] => (m, warns)
  | .malformed raw :: rest => processLines (now + 1) m (warns ++ [warnMsg raw]) rest
  | .ok e :: rest =>
    match applyEvent now m e with
    | .next m' => processLines (now + 1) m' warns rest
    | .finished m' => (m', warns)
    | .thrown m' _ => (failTurn m', warns)

/-- **C9**: a malformed data line between two well-formed content records
is logged as a warning and skipped; both valid content deltas are applied
in arrival order; the loop neither raises nor aborts the stream — it
continues with the remaining lines exactly as if only the deltas had
arrived. -/
theorem malformed_line_skipped (now : Nat) (m : BotMessage) (warns : List String)
    (a b raw : String) (rest : List ParsedLine) :
    processLines now m warns
        (.ok (.content a) :: .malformed raw :: .ok (.content b) :: rest)
      = processLines (now + 3) { m with streamingText := m.streamingText ++ a ++ b }
          (warns ++ [warnMsg raw]) rest
    ∧ (processLines now m warns
        [.ok (.content a), .malformed raw, .ok (.content b)]).1.streamingText
      = m.streamingText ++ a ++ b
    ∧ (processLines now m warns
        [.ok (.content a), .malformed raw, .ok (.content b)]).2
      = warns ++ [warnMsg raw] := by
  refine ⟨rfl, rfl, rfl⟩

/-- The `setMessages(prev => prev.map(msg => msg.id === botMessageId ? ... : msg))`
pattern every state update in `handleStreamedResponse` uses. -/
def updateMessages (msgs : List BotMessage) (botId : Nat) (f : BotMessage → BotMessage) :
    List BotMessage :=
  msgs.map fun msg => if msg.id = botId then f msg else msg

/-- A state update performed during one exchange: a stream record, the
user-cancellation branch, or the generic failure branch. -/
inductive SessionAct
  | streamEvt (e : StreamEvent)
  | cancelAct
  | failureAct
deriving DecidableEq, Repr

/-- Session-level effect of one action on the messages list: every branch
of `handleStreamedResponse` (and of its catch) rewrites the list through
`updateMessages` keyed on `botMessageId`.  Records the code's `status` and
`tool_complete` branches (and unrecognized kinds) as the identity
transform, since they perform no `setMessages` call. -/
def sessionApply (now : Nat) (msgs : List BotMessage) (botId : Nat) :
    SessionAct → List BotMessage
  | .streamEvt e =>
      updateMessages msgs botId fun m =>
        match applyEvent now m e with
        | .next m' => m'
        | .finished m' => m'
        | .thrown m' _ => failTurn m'
  | .cancelAct => updateMessages msgs botId stopTurn
  | .failureAct => updateMessages msgs botId failTurn

/-- Helper: `updateMessages` leaves any message with a different id
untouched, positionally. -/
theorem updateMessages_frame (msgs : List BotMessage) (botId : Nat)
    (f : BotMessage → BotMessage) (i : Nat) (m : BotMessage)
    (hm : msgs[i]? = some m) (hid : m.id ≠ botId) :
    (updateMessages msgs botId f)[i]? = some m := by
  unfold updateMessages
  rw [List.getElem?_map, hm]
  simp [hid]

/-- **C10**: every stream record processed during an exchange, as well as
the cancellation and failure paths, mutates at most the bot message whose
id is `botMessageId`: the messages list keeps its length, and any message
at a position holding a different id is left unchanged. -/
theorem exchange_touches_only_bot_message (now : Nat) (msgs : List BotMessage)
    (botId : Nat) (a : SessionAct) (i : Nat) (m : BotMessage)
    (hm : msgs[i]? = some m) (hid : m.id ≠ botId) :
    (sessionApply now msgs botId a).length = msgs.length
    ∧ (sessionApply now msgs botId a)[i]? = some m := by
  cases a with
  | streamEvt e =>
    exact ⟨List.length_map _ _, updateMessages_frame msgs botId _ i m hm hid⟩
  | cancelAct =>
    exact ⟨List.length_map _ _, updateMessages_frame msgs botId _ i m hm hid⟩
  | failureAct =>
    exact ⟨List.length_map _ _, updateMessages_frame msgs botId _ i m hm hid⟩

/-- Witness for `exchange_touches_only_bot_message`: a user message (id 1)
is untouched while a content record updates the bot message (id 2). -/
theorem exchange_touches_only_bot_message_witness :
    ([initialBotMessage 1, initialBotMessage 2] :
        List BotMessage)[0]? = some (initialBotMessage 1)
    ∧ (sessionApply 0 [initialBotMessage 1, initialBotMessage 2] 2
        (.streamEvt (.content "hi"))).length = 2
    ∧ (sessionApply 0 [initialBotMessage 1, initialBotMessage 2] 2
        (.streamEvt (.content "hi")))[0]? = some (initialBotMessage 1) := by
  refine ⟨by decide, ?_, ?_⟩
  · exact (exchange_touches_only_bot_message 0 [initialBotMessage 1, initialBotMessage 2] 2
      (.streamEvt (.content "hi")) 0 (initialBotMessage 1) (by decide) (by decide)).1
  · exact (exchange_touches_only_bot_message 0 [initialBotMessage 1, initialBotMessage 2] 2
      (.streamEvt (.content "hi")) 0 (initialBotMessage 1) (by decide) (by decide)).2

/-- The backtick character (U+0060), the fence delimiter unit. -/
def backtick : Char := Char.ofNat 96

/-- Number of non-overlapping triple-backtick fence markers, scanning left
to right — the separator count of `content.split('```')`. -/
def countFences : List Char → Nat
  | [] => 0
  | [_] => 0
  | [_, _] => 0
  | a :: b :: c :: rest =>
    if a = backtick ∧ b = backtick ∧ c = backtick then countFences rest + 1
    else countFences (b :: c :: rest)

/-- `content.includes('```')`: some triple-backtick occurs. -/
def includesFence : List Char → Bool
  | [] => false
  | [_] => false
  | [_, _] => false
  | a :: b :: c :: rest =>
    if a = backtick ∧ b = backtick ∧ c = backtick then true
    else includesFence (b :: c :: rest)

/-- Prepend a character to the first segment of a split result. -/
def consHead (a : Char) : List (List Char) → List (List Char)
  | [] => [[a]]
  | s :: ss => (a :: s) :: ss

/-- `content.split('```')`: the segments between the non-overlapping
left-to-right occurrences of the triple-backtick marker. -/
def splitFences : List Char → List (List Char)
  | [] => [[]]
  | [a] => [[a]]
  | [a, b] => [[a, b]]
  | a :: b :: c :: rest =>
    if a = backtick ∧ b = backtick ∧ c = backtick then [] :: splitFences rest
    else consHead a (splitFences (b :: c :: rest))

/-- Helper: a fence is found exactly when the scan counts at least one. -/
theorem includesFence_eq_count : ∀ l : List Char, includesFence l = (countFences l != 0)
  | [] => by simp [includesFence, countFences]
  | [a] => by simp [includesFence, countFences]
  | [a, b] => by simp [includesFence, countFences]
  | a :: b :: c :: rest => by
    by_cases h : a = backtick ∧ b = backtick ∧ c = backtick
    · simp [includesFence, countFences, h]
    · simp [includesFence, countFences, h, includesFence_eq_count (b :: c :: rest)]

/-- Helper: prepending to a nonempty split result keeps its length. -/
theorem length_consHead (a : Char) (ls : List (List Char)) (h : ls ≠ []) :
    (consHead a ls).length = ls.length := by
  cases ls with
  | nil => exact absurd rfl h
  | cons s ss => simp [consHead]

/-- Helper: a split has one more segment than it has separators. -/
theorem length_splitFences : ∀ l : List Char, (splitFences l).length = countFences l + 1
  | [] => by simp [splitFences, countFences]
  | [a] => by simp [splitFences, countFences]
  | [a, b] => by simp [splitFences, countFences]
  | a :: b :: c :: rest => by
    by_cases h : a = backtick ∧ b = backtick ∧ c = backtick
    · simp [splitFences, countFences, h, length_splitFences rest]
    · have h1 := length_splitFences (b :: c :: rest)
      have hne : splitFences (b :: c :: rest) ≠ [] := by
        intro hc; rw [hc] at h1; simp at h1
      simp [splitFences, countFences, h, length_consHead a _ hne, h1]

/-- `EnhancedMarkdown`'s incomplete-block detector:
`isStreaming && content.includes('```') && (content.split('```').length % 2 === 0)`.
A true flag marks the turn's code blocks provisional (raw "still typing"
view); a false flag lets them settle to the formatted view. -/
def hasIncompleteCodeBlock (isStrm : Bool) (content : String) : Bool :=
  isStrm && includesFence content.data && ((splitFences content.data).length % 2 == 0)

/-- Helper: with an odd fence count the detector fires while streaming. -/
theorem hasIncomplete_of_odd (c : String) (h : countFences c.data % 2 = 1) :
    hasIncompleteCodeBlock true c = true := by
  unfold hasIncompleteCodeBlock
  rw [includesFence_eq_count, length_splitFences]
  have h0 : countFences c.data ≠ 0 := by omega
  have h1 : (countFences c.data + 1) % 2 = 0 := by omega
  simp [h0, h1]

/-- Helper: with an even fence count the detector never fires. -/
theorem hasIncomplete_of_even (c : String) (strm : Bool) (h : countFences c.data % 2 = 0) :
    hasIncompleteCodeBlock strm c = false := by
  unfold hasIncompleteCodeBlock
  rw [length_splitFences]
  have h1 : (countFences c.data + 1) % 2 = 1 := by omega
  simp [h1]

/-- **C4**: with an even number of triple-backtick markers the last block
is classified settled (the provisional flag is off, streaming or not);
with an odd number while streaming it is classified provisional (the flag
is on, so `StreamingCodeBlock` shows the raw still-typing view). -/
theorem fence_balance_classification (c : String) (strm : Bool) :
    (countFences c.data % 2 = 0 → hasIncompleteCodeBlock strm c = false)
    ∧ (countFences c.data % 2 = 1 → hasIncompleteCodeBlock true c = true) :=
  ⟨hasIncomplete_of_even c strm, hasIncomplete_of_odd c⟩

/-- Witness for `fence_balance_classification`: a closed pair of fences is
settled even mid-stream; a dangling fence mid-stream is provisional. -/
theorem fence_balance_classification_witness :
    (countFences "a```b```c".data % 2 = 0 ∧ hasIncompleteCodeBlock true "a```b```c" = false)
    ∧ (countFences "a```b".data % 2 = 1 ∧ hasIncompleteCodeBlock true "a```b" = true) :=
  ⟨⟨by decide, (fence_balance_classification "a```b```c" true).1 (by decide)⟩,
   ⟨by decide, (fence_balance_classification "a```b" true).2 (by decide)⟩⟩

/-- JS `String.prototype.toLowerCase` (ASCII range suffices here). -/
def jsToLower (s : String) : String := ⟨s.data.map Char.toLower⟩

/-- JS regex `\w`: letters, digits, underscore. -/
def wordChar (c : Char) : Bool := c.isAlphanum || c == '_'

/-- `/language-(\w+)/.exec`: find the leftmost occurrence of `language-`
followed by at least one word character; capture the word-character run. -/
def execLanguage : List Char → Option (List Char)
  | [] => none
  | a :: t =>
    if List.take 9 (a :: t) = "language-".data then
      (if List.takeWhile wordChar (List.drop 9 (a :: t)) = [] then execLanguage t
       else some (List.takeWhile wordChar (List.drop 9 (a :: t))))
    else execLanguage t

/-- `const language = match ? match[1] : ''` over `className || ''`. -/
def extractLanguage (className : Option String) : String :=
  match execLanguage (className.getD "").data with
  | some w => ⟨w⟩
  | none => ""

/-- `String(children).replace(/\n$/, '')`. -/
def stripTrailingNewline (s : String) : String :=
  if s.data.getLast? = some '\n' then ⟨s.data.dropLast⟩ else s

/-- JS `String.prototype.trim` (common whitespace). -/
def jsTrim (l : List Char) : List Char :=
  ((l.dropWhile Char.isWhitespace).reverse.dropWhile Char.isWhitespace).reverse

/-- Case-insensitive prefix test against a lowercase pattern. -/
def startsWithCI (l : List Char) (p : List Char) : Bool :=
  (List.take p.length l).map Char.toLower == p

/-- An occurrence of the comment closer `-->`. -/
def hasCloseMarker : List Char → Bool
  | [] => false
  | [_] => false
  | [_, _] => false
  | a :: b :: c :: rest =>
    if a = '-' ∧ b = '-' ∧ c = '>' then true else hasCloseMarker (b :: c :: rest)

/-- `codeContent.trim().match(/^<!DOCTYPE html>|^<html|^<\!--.*-->/i)`: the
trimmed content starts with an HTML document marker, an opening html tag,
or an HTML comment closed within its first line. -/
def startsHtml (codeContent : String) : Bool :=
  startsWithCI (jsTrim codeContent.data) "<!doctype html>".data
  || startsWithCI (jsTrim codeContent.data) "<html".data
  || ((List.take 4 (jsTrim codeContent.data) == "<!--".data)
      && hasCloseMarker (List.takeWhile (fun ch => !(ch == '\n'))
          (List.drop 4 (jsTrim codeContent.data))))

/-- The embeddable-HTML candidate test of `EnhancedMarkdown`'s code
component: declared language tag `html`/`htm`, or no tag and content
starting with an HTML document or comment marker. -/
def isHtmlCandidate (className : Option String) (children : String) : Bool :=
  ((!(extractLanguage className == ""))
    && ((jsToLower (extractLanguage className) == "html")
        || (jsToLower (extractLanguage className) == "htm")))
  || ((extractLanguage className == "") && startsHtml (stripTrailingNewline children))

/-- The `sandbox` attribute of the `HtmlPreview` iframe. -/
def htmlPreviewSandbox : String := "allow-scripts allow-popups allow-popups-to-escape-sandbox"

/-- The structured output of `EnhancedMarkdown`'s `code` component: a live
sandboxed HTML embed (`HtmlPreview`), a code block (`StreamingCodeBlock`,
provisional when its flag is on), or inline code. -/
inductive Rendered
  | htmlPreview (htmlContent : String)
  | streamingCode (language : String) (codeContent : String) (isStreamingFlag : Bool)
  | inlineCode (children : String)
deriving DecidableEq, Repr

/-- `EnhancedMarkdown`'s `code` component: HTML candidates are embedded
only when `!isStreaming && autoRenderHtml`; otherwise every non-inline
block becomes a `StreamingCodeBlock` whose provisional flag is the whole
content's `hasIncompleteCodeBlock`. -/
def renderCodeComponent (isStrm autoRenderHtml : Bool) (content : String)
    (inline : Bool) (className : Option String) (children : String) : Rendered :=
  if inline then .inlineCode children
  else
    if ((!isStrm) && autoRenderHtml) && isHtmlCandidate className children then
      .htmlPreview (stripTrailingNewline children)
    else
      .streamingCode
        (if isHtmlCandidate className children then "html" else extractLanguage className)
        (stripTrailingNewline children)
        (hasIncompleteCodeBlock isStrm content)

/-- The provisional flag a rendered block carries (false for embeds and
inline code). -/
def renderedProvisional : Rendered → Bool
  | .streamingCode _ _ b => b
  | _ => false

/-- Streaming content with three fence markers: a closed first block,
prose, then an unclosed second block. -/
def c5Content : String := "```\nfirst()\n```\nBetween blocks.\n```\nsecond("

/-- **C5 counterexample**: the claim says blocks strictly before the last
unclosed fence are classified settled while streaming.  But the code
passes one uniform flag — the whole content's `hasIncompleteCodeBlock` —
to every code block: with three fence markers (`countFences = 3`, last
fence unclosed) the first, already closed block (`first()`, strictly
before the last fence) is still rendered as a provisional
`StreamingCodeBlock` with the flag on, not settled. -/
theorem settled_block_rendered_provisional :
    countFences c5Content.data = 3
    ∧ renderCodeComponent true false c5Content false none "first()\n"
        = .streamingCode "" "first()" true := by
  exact ⟨by decide, by decide⟩

/-- **C5 (amended)**: while a turn is streaming and its accumulated text
contains an odd number of fence markers, every fenced code block — those
strictly before the last unclosed fence included — is classified
provisional and rendered as a raw `StreamingCodeBlock`; no block of the
turn is settled until the fence count turns even or streaming ends. -/
theorem streaming_odd_fences_all_provisional (content children : String)
    (className : Option String) (auto : Bool)
    (hodd : countFences content.data % 2 = 1) :
    renderedProvisional (renderCodeComponent true auto content false className children) = true := by
  have hflag := hasIncomplete_of_odd content hodd
  unfold renderCodeComponent
  by_cases hc : isHtmlCandidate className children
  · simp [hc, renderedProvisional, hflag]
  · simp [hc, renderedProvisional, hflag]

/-- Witness for `streaming_odd_fences_all_provisional` at the earlier
closed block of `c5Content`. -/
theorem streaming_odd_fences_all_provisional_witness :
    countFences c5Content.data % 2 = 1
    ∧ renderedProvisional
        (renderCodeComponent true true c5Content false none "first()\n") = true :=
  ⟨by decide,
   streaming_odd_fences_all_provisional c5Content "first()\n" none true (by decide)⟩

/-- **C7**: while a turn is streaming, no code block — embeddable-HTML
candidates included — is ever rendered as a live `HtmlPreview` embed:
every non-inline block is a plain `StreamingCodeBlock`.  Conversely a
block is embedded in the sandboxed preview only once settled: an
`HtmlPreview` output forces `isStreaming = false` (and auto-render on). -/
theorem provisional_html_never_embedded :
    (∀ (auto : Bool) (content : String) (className : Option String) (children x : String),
        renderCodeComponent true auto content false className children ≠ .htmlPreview x)
    ∧ (∀ (auto : Bool) (content : String) (className : Option String) (children : String),
        ∃ lang, renderCodeComponent true auto content false className children
          = .streamingCode lang (stripTrailingNewline children)
              (hasIncompleteCodeBlock true content))
    ∧ (∀ (strm auto : Bool) (content : String) (className : Option String) (children x : String),
        renderCodeComponent strm auto content false className children = .htmlPreview x →
          strm = false ∧ auto = true) := by
  refine ⟨?_, ?_, ?_⟩
  · intro auto content className children x h
    simp [renderCodeComponent] at h
  · intro auto content className children
    exact ⟨_, rfl⟩
  · intro strm auto content className children x h
    cases strm <;> cases auto <;> simp_all [renderCodeComponent]

/-- Witness for `provisional_html_never_embedded`: a settled html-tagged
block with auto-render on is embedded, and the theorem pins its flags. -/
theorem provisional_html_never_embedded_witness :
    renderCodeComponent false true "c" false (some "language-html") "<h1>x</h1>"
        = .htmlPreview "<h1>x</h1>"
    ∧ (false = false ∧ true = true) :=
  ⟨by decide,
   provisional_html_never_embedded.2.2 false true "c" (some "language-html") "<h1>x</h1>"
     "<h1>x</h1>" (by decide)⟩
